import Mathlib

/-!
Verification of the Sophia client-side orchestration layer
(`services/geminiService.ts` and `App.tsx`), shallowly embedded in Lean.

Strings are JS strings; where proofs need list structure they are embedded
as `List Char`.  Asynchronous operations that can reject are embedded as
`Except JsError` values; an operation retried by `withRetry` is embedded as
the function from attempt index to that attempt's outcome.
-/

set_option autoImplicit false

namespace Sophia

/-- Substring matching on character lists: `segStarts l p` is true when
`p` is a prefix of `l` (the JS `String.prototype.startsWith`). -/
def segStarts : List Char → List Char → Bool
  | _, [] => true
  | [], _ :: _ => false
  | a :: as, b :: bs => a == b && segStarts as bs

theorem segStarts_append_self (x y : List Char) : segStarts (x ++ y) x = true := by
  induction x with
  | nil => cases y <;> rfl
  | cons a as ih => simp [segStarts, ih]

/-- Predicate `hasSeg l p` is true when `p` occurs as a contiguous segment of `l`
(the JS `String.prototype.includes`). -/
def hasSeg : List Char → List Char → Bool
  | [], p => segStarts [] p
  | a :: as, p => segStarts (a :: as) p || hasSeg as p

/-- JS `s.includes(sub)` on strings. -/
def strIncludes (s sub : String) : Bool :=
  hasSeg s.toList sub.toList

/-- A JavaScript error value as inspected by `withRetry` and
`handleApiError`: an optional `message`, an optional numeric `code`, and an
optional string `status` (fields read as `error?.message`, `error?.code`,
`error?.status` in the source). -/
structure JsError where
  message : Option String
  code : Option Int
  status : Option String
deriving DecidableEq, Repr

/-- Build the error thrown by `new Error(m)`. -/
def jsErr (m : String) : JsError :=
  ⟨some m, none, none⟩

/-- The transient-overload test of `withRetry` (`geminiService.ts`):
`error?.message?.includes('overloaded') || error?.message?.includes('503')
|| error?.code === 503 || error?.status === 'UNAVAILABLE'`. -/
def isOverloaded (e : JsError) : Bool :=
  (match e.message with
   | some m => strIncludes m "overloaded" || strIncludes m "503"
   | none => false)
  || e.code == some 503 || e.status == some "UNAVAILABLE"

/-- Observable trace of a `withRetry` run: the final settled value, the
number of times the wrapped operation was called, and the list of delays
passed to `sleep`, in order. -/
structure RetryTrace (α : Type) where
  result : Except JsError α
  calls : Nat
  delays : List Nat
deriving Repr

/-- Embedding of `withRetry(operation, retries, delay)` from `geminiService.ts`.  The
wrapped operation is embedded as the function `op` from attempt index to
that attempt's outcome; `op 0` is the first call.  On a failure that
satisfies `isOverloaded` with a positive budget it sleeps `delay`, then
recurses on the remaining attempts with the budget decremented and the
delay doubled; otherwise it rethrows. -/
def withRetry {α : Type} (op : Nat → Except JsError α) : Nat → Nat → RetryTrace α
  | 0, _ =>
    match op 0 with
    | .ok a => ⟨.ok a, 1, []⟩
    | .error e => ⟨.error e, 1, []⟩
  | r + 1, delay =>
    match op 0 with
    | .ok a => ⟨.ok a, 1, []⟩
    | .error e =>
      if isOverloaded e then
        let rest := withRetry (fun k => op (k + 1)) r (delay * 2)
        ⟨rest.result, rest.calls + 1, delay :: rest.delays⟩
      else ⟨.error e, 1, []⟩

/-- An operation that fails with a transient-overload error on its first
`n` attempts and succeeds from attempt `n` on. -/
def OverloadedUntil {α : Type} (op : Nat → Except JsError α) (n : Nat) : Prop :=
  (∀ k, k < n → ∃ e, op k = .error e ∧ isOverloaded e = true) ∧
  (∀ k, n ≤ k → ∃ a, op k = .ok a)

theorem withRetry_overload_trace {α : Type} :
    ∀ (r : Nat) (op : Nat → Except JsError α) (d n : Nat),
    OverloadedUntil op n →
    (withRetry op r d).calls = min (n + 1) (r + 1) ∧
    (withRetry op r d).delays = (List.range (min n r)).map (fun i => d * 2 ^ i) := by
  intro r
  induction r with
  | zero =>
    intro op d n h
    cases n with
    | zero =>
      obtain ⟨a, ha⟩ := h.2 0 (Nat.le_refl 0)
      simp [withRetry, ha]
    | succ m =>
      obtain ⟨e, he, _⟩ := h.1 0 (Nat.succ_pos m)
      simp [withRetry, he]
  | succ s ih =>
    intro op d n h
    cases n with
    | zero =>
      obtain ⟨a, ha⟩ := h.2 0 (Nat.le_refl 0)
      simp [withRetry, ha]
    | succ m =>
      obtain ⟨e, he, hov⟩ := h.1 0 (Nat.succ_pos m)
      have h' : OverloadedUntil (fun k => op (k + 1)) m := by
        constructor
        · intro k hk
          exact h.1 (k + 1) (Nat.succ_lt_succ hk)
        · intro k hk
          exact h.2 (k + 1) (Nat.succ_le_succ hk)
      obtain ⟨ihc, ihd⟩ := ih (fun k => op (k + 1)) (d * 2) m h'
      constructor
      · simp only [withRetry, he, hov, if_true, ihc]
        omega
      · simp only [withRetry, he, hov, if_true, ihd]
        rw [Nat.succ_min_succ, List.range_succ_eq_map, List.map_cons, List.map_map]
        congr 1
        · ring
        · apply List.map_congr_left
          intro i _
          simp [Function.comp, pow_succ]
          ring

/-- The concrete operation used to witness the retry theorems: two
transient-overload failures followed by success. -/
def cOpTwoFail : Nat → Except JsError Nat :=
  fun k => if k < 2 then .error ⟨some "overloaded", none, none⟩ else .ok 7

/-- C1: for an operation that fails with a transient-overload signal on its
first `n` attempts and succeeds afterwards, `withRetry` with the source's
defaults (`retries = 3`, `delay = 2000`) performs exactly `min (n+1) 4`
calls, and the delays slept before the successive retries are the prefix
`[2000, 4000, 8000].take (min n 3)` — in particular strictly increasing. -/
theorem withRetry_budget3_calls_and_delays {α : Type}
    (op : Nat → Except JsError α) (n : Nat) (h : OverloadedUntil op n) :
    (withRetry op 3 2000).calls = min (n + 1) 4 ∧
    (withRetry op 3 2000).delays = List.take (min n 3) [2000, 4000, 8000] ∧
    List.Chain' (· < ·) (withRetry op 3 2000).delays := by
  obtain ⟨hc, hd⟩ := withRetry_overload_trace 3 op 2000 n h
  have hts : (withRetry op 3 2000).delays = List.take (min n 3) [2000, 4000, 8000] := by
    rw [hd]
    match n with
    | 0 => rfl
    | 1 => rfl
    | 2 => rfl
    | m + 3 =>
      have h3 : min (m + 3) 3 = 3 := by omega
      rw [h3]
      rfl
  refine ⟨hc, hts, ?_⟩
  rw [hts]
  have hm3 : min n 3 ≤ 3 := Nat.min_le_right n 3
  set m := min n 3 with hm
  interval_cases m <;>
    norm_num [List.take_succ_cons, List.take_zero, List.chain'_cons, List.chain'_singleton]

/-- Witness for C1 at the concrete operation `cOpTwoFail` (`n = 2`):
four hypotheses checked and the conclusion obtained from the theorem. -/
theorem withRetry_budget3_calls_and_delays_witness :
    OverloadedUntil cOpTwoFail 2 ∧
    ((withRetry cOpTwoFail 3 2000).calls = min (2 + 1) 4 ∧
     (withRetry cOpTwoFail 3 2000).delays = List.take (min 2 3) [2000, 4000, 8000] ∧
     List.Chain' (· < ·) (withRetry cOpTwoFail 3 2000).delays) := by
  have h : OverloadedUntil cOpTwoFail 2 := by
    constructor
    · intro k hk
      refine ⟨⟨some "overloaded", none, none⟩, ?_, by decide⟩
      unfold cOpTwoFail
      rw [if_pos hk]
    · intro k hk
      refine ⟨7, ?_⟩
      unfold cOpTwoFail
      rw [if_neg (by omega)]
  exact ⟨h, withRetry_budget3_calls_and_delays cOpTwoFail 2 h⟩

/-- C4: when the first call fails with an error that is not a
transient-overload signal, `withRetry` propagates exactly that error after
a single call of the operation and sleeps no delay, for every retry budget
and initial delay. -/
theorem withRetry_nontransient_propagates {α : Type}
    (op : Nat → Except JsError α) (r d : Nat) (e : JsError)
    (h0 : op 0 = .error e) (hov : isOverloaded e = false) :
    withRetry op r d = ⟨.error e, 1, []⟩ := by
  cases r with
  | zero => simp [withRetry, h0]
  | succ s => simp [withRetry, h0, hov]

/-- Witness for C4: a non-transient error (`message = "boom"`) is
propagated unchanged after one call with no delay. -/
theorem withRetry_nontransient_propagates_witness :
    ((fun _ : Nat => (.error (jsErr "boom") : Except JsError Nat)) 0
        = .error (jsErr "boom")) ∧
    isOverloaded (jsErr "boom") = false ∧
    withRetry (fun _ : Nat => (.error (jsErr "boom") : Except JsError Nat)) 3 2000
      = ⟨.error (jsErr "boom"), 1, []⟩ :=
  ⟨rfl, by decide,
   withRetry_nontransient_propagates _ 3 2000 (jsErr "boom") rfl (by decide)⟩

/-- C10: `withRetry` always terminates, and because each recursive call
strictly decreases the retry budget it performs at most `r + 1` calls of
the operation before resolving or throwing. -/
theorem withRetry_calls_le {α : Type} :
    ∀ (r : Nat) (op : Nat → Except JsError α) (d : Nat),
    (withRetry op r d).calls ≤ r + 1 := by
  intro r
  induction r with
  | zero =>
    intro op d
    unfold withRetry
    match op 0 with
    | .ok a => exact Nat.le_refl 1
    | .error e => exact Nat.le_refl 1
  | succ s ih =>
    intro op d
    unfold withRetry
    match op 0 with
    | .ok a => exact Nat.le_add_left 1 (s + 1)
    | .error e =>
      by_cases hov : isOverloaded e
      · simp only [hov, if_true]
        exact Nat.succ_le_succ (ih (fun k => op (k + 1)) (d * 2))
      · simp only [hov, if_false]
        exact Nat.le_add_left 1 (s + 1)

/-- A quote record (`types.ts` / `App.tsx`): locally generated `id`, the
quote text, the author, and the resolved image URL. -/
structure Quote where
  id : String
  quote : String
  author : String
  imageUrl : String
deriving DecidableEq, Repr

/-- Embedding of `toggleFavorite` from `App.tsx`: if some favorite has the same quote
text it removes every entry with that text, otherwise it prepends the
quote to the list. -/
def toggleFavorite (q : Quote) (prev : List Quote) : List Quote :=
  if prev.any (fun fav => fav.quote == q.quote) then
    prev.filter (fun fav => fav.quote != q.quote)
  else
    q :: prev

/-- Concrete quote records for the favorites counterexample and witness. -/
def cQa : Quote := ⟨"1", "a", "X", ""⟩

def cQb : Quote := ⟨"2", "b", "Y", ""⟩

/-- C3 counterexample: toggling `cQa` twice on `[cQb, cQa]` yields
`[cQa, cQb]`, not the original list — a quote already present but not in
front is moved to the front by a double toggle. -/
theorem toggleFavorite_twice_not_id :
    toggleFavorite cQa (toggleFavorite cQa [cQb, cQa]) ≠ [cQb, cQa] := by
  decide

/-- C3 amended: toggling a favorite twice for a quote whose text does not
occur in the favorites list leaves the list unchanged (double toggling a
quote already present removes it and reinserts the toggled record at the
front instead). -/
theorem toggleFavorite_twice_of_not_mem (q : Quote) (prev : List Quote)
    (h : ∀ f ∈ prev, f.quote ≠ q.quote) :
    toggleFavorite q (toggleFavorite q prev) = prev := by
  have hany : prev.any (fun fav => fav.quote == q.quote) = false := by
    rw [List.any_eq_false]
    intro f hf
    simpa using h f hf
  have h1 : toggleFavorite q prev = q :: prev := by
    unfold toggleFavorite
    rw [hany]
    rfl
  rw [h1]
  unfold toggleFavorite
  have hany2 : (q :: prev).any (fun fav => fav.quote == q.quote) = true := by
    simp
  rw [hany2, if_pos rfl, List.filter_cons_of_neg (by simp)]
  rw [List.filter_eq_self]
  intro f hf
  simpa using h f hf

/-- Witness for C3's amended theorem: `cQa`'s text is absent from `[cQb]`
and double toggling restores `[cQb]`. -/
theorem toggleFavorite_twice_of_not_mem_witness :
    (∀ f ∈ [cQb], f.quote ≠ cQa.quote) ∧
    toggleFavorite cQa (toggleFavorite cQa [cQb]) = [cQb] :=
  ⟨by decide, toggleFavorite_twice_of_not_mem cQa [cQb] (by decide)⟩

/-- C9: `toggleFavorite` is frame-preserving on all entries whose quote
text differs from the toggled quote's text: the sublist of such entries,
including its order, is unchanged, so only entries with the toggled text
are added or removed. -/
theorem toggleFavorite_frame (q : Quote) (prev : List Quote) :
    (toggleFavorite q prev).filter (fun f => f.quote != q.quote) =
      prev.filter (fun f => f.quote != q.quote) := by
  unfold toggleFavorite
  by_cases hany : prev.any (fun fav => fav.quote == q.quote)
  · rw [if_pos hany, List.filter_filter]
    apply List.filter_congr
    intro f _
    simp
  · rw [if_neg hany, List.filter_cons_of_neg (by simp)]

/-- The user-facing message for a missing credential in `handleApiError`. -/
def MSG_CONFIG : String :=
  "Configuração necessária: Verifique se a API_KEY está definida no .env ou no painel de hospedagem."

/-- The user-facing message for an overloaded service in `handleApiError`. -/
def MSG_OVERLOAD : String :=
  "Nossa musa inspiradora está com alta demanda no momento. Por favor, aguarde alguns segundos e tente novamente."

/-- The user-facing message for an exceeded quota in `handleApiError`. -/
def MSG_QUOTA : String :=
  "Limite de requisições excedido. Aguarde um momento antes de buscar novamente."

/-- The default text used by `handleApiError` when the error message is
empty. -/
def MSG_UNKNOWN : String := "Falha desconhecida na conexão."

/-- The overload test of `handleApiError` (`App.tsx`):
`msg.includes("503") || msg.includes("overloaded") || msg.includes("UNAVAILABLE")`. -/
def isOverloadMsg (msg : String) : Bool :=
  strIncludes msg "503" || strIncludes msg "overloaded" || strIncludes msg "UNAVAILABLE"

/-- The quota test of `handleApiError` (`App.tsx`):
`msg.includes("429") || msg.includes("quota")`. -/
def isQuotaMsg (msg : String) : Bool :=
  strIncludes msg "429" || strIncludes msg "quota"

/-- Embedding of `handleApiError` from `App.tsx`, taking the caught error's optional
`message` field (`const msg = err.message || ""`).  Note the first branch
tests `msg === 'API_KEY_MISSING'` — exact string equality, not a substring
test. -/
def handleApiError (errMessage : Option String) : String :=
  let msg := errMessage.getD ""
  if msg = "API_KEY_MISSING" then MSG_CONFIG
  else if isOverloadMsg msg then MSG_OVERLOAD
  else if isQuotaMsg msg then MSG_QUOTA
  else "Erro: " ++ (if msg = "" then MSG_UNKNOWN else msg)

/-- C7 counterexample: the message `"xAPI_KEY_MISSING"` contains
`"API_KEY_MISSING"` as a substring, yet `handleApiError` does not select
the missing-credential category for it — that branch uses exact equality,
not substring matching. -/
theorem handleApiError_not_substring_on_key :
    strIncludes "xAPI_KEY_MISSING" "API_KEY_MISSING" = true ∧
    handleApiError (some "xAPI_KEY_MISSING") ≠ MSG_CONFIG ∧
    handleApiError (some "xAPI_KEY_MISSING") = "Erro: xAPI_KEY_MISSING" := by
  refine ⟨by decide, ?_, by decide⟩
  decide

/-- C7 amended: `handleApiError` classifies every error message into
exactly one of four user-facing categories, tried in order: the
missing-credential message when the text equals `'API_KEY_MISSING'`
(exact equality, not substring matching), the overload message when the
text contains `'503'`, `'overloaded'` or `'UNAVAILABLE'`, the quota
message when it contains `'429'` or `'quota'`, and otherwise an
unknown-error message echoing the text.  The four listed conditions are
mutually exclusive, so exactly one disjunct holds. -/
theorem handleApiError_classification (m : Option String) :
    (m.getD "" = "API_KEY_MISSING" ∧ handleApiError m = MSG_CONFIG) ∨
    (m.getD "" ≠ "API_KEY_MISSING" ∧ isOverloadMsg (m.getD "") = true ∧
      handleApiError m = MSG_OVERLOAD) ∨
    (m.getD "" ≠ "API_KEY_MISSING" ∧ isOverloadMsg (m.getD "") = false ∧
      isQuotaMsg (m.getD "") = true ∧ handleApiError m = MSG_QUOTA) ∨
    (m.getD "" ≠ "API_KEY_MISSING" ∧ isOverloadMsg (m.getD "") = false ∧
      isQuotaMsg (m.getD "") = false ∧
      handleApiError m = "Erro: " ++ (if m.getD "" = "" then MSG_UNKNOWN else m.getD "")) := by
  by_cases h1 : m.getD "" = "API_KEY_MISSING"
  · exact Or.inl ⟨h1, by simp [handleApiError, h1]⟩
  · by_cases h2 : isOverloadMsg (m.getD "")
    · exact Or.inr (Or.inl ⟨h1, h2, by simp [handleApiError, h1, h2]⟩)
    · by_cases h3 : isQuotaMsg (m.getD "")
      · refine Or.inr (Or.inr (Or.inl ⟨h1, by simpa using h2, h3, ?_⟩))
        simp [handleApiError, h1, h2, h3]
      · refine Or.inr (Or.inr (Or.inr
          ⟨h1, by simpa using h2, by simpa using h3, ?_⟩))
        simp [handleApiError, h1, h2, h3]

/-- The fixed static fallback image list of `geminiService.ts`. -/
def FALLBACK_IMAGES : List String := [
  "https://images.unsplash.com/photo-1485846234645-a62644f84728?q=80&w=720&auto=format&fit=crop",
  "https://images.unsplash.com/photo-1519681393784-d120267933ba?q=80&w=720&auto=format&fit=crop",
  "https://images.unsplash.com/photo-1500462918059-b1a0cb512f1d?q=80&w=720&auto=format&fit=crop",
  "https://images.unsplash.com/photo-1478760329108-5c3ed9d495a0?q=80&w=720&auto=format&fit=crop",
  "https://images.unsplash.com/photo-1550684848-fac1c5b4e853?q=80&w=720&auto=format&fit=crop",
  "https://images.unsplash.com/photo-1534447677768-be436bb09401?q=80&w=720&auto=format&fit=crop"]

/-- The index computed by `getRandomFallbackImage`:
`Math.floor(Math.random() * FALLBACK_IMAGES.length)`, with the
`Math.random()` sample embedded as a rational `r` (the JS contract gives
`0 ≤ r < 1`). -/
def fallbackIndex (r : ℚ) : Nat :=
  (⌊r * (FALLBACK_IMAGES.length : ℚ)⌋).toNat

/-- Embedding of `getRandomFallbackImage` from `geminiService.ts`:
`FALLBACK_IMAGES[Math.floor(Math.random() * FALLBACK_IMAGES.length)]`. -/
def getRandomFallbackImage (r : ℚ) : String :=
  FALLBACK_IMAGES.getD (fallbackIndex r) ""

/-- The JSON object parsed from the prompt-analysis response of
`generateQuoteImage`: optional `visual_prompt` and `search_keywords`
fields. -/
structure Analysis where
  visual_prompt : Option String
  search_keywords : Option String
deriving Repr

/-- The environment of one `generateQuoteImage` run: the configured API
key (`process.env.API_KEY` tested by `getAiClient`), the settled outcome
of the retried prompt-analysis call combined with the JSON parse of its
cleaned text, the settled outcome of the retried image-generation call
(the `inlineData.data` field of each part of `candidates[0].content.parts`,
`none` when that path is absent), the stock-photo lookup
`fetchPexelsImage` as a function of the query (it resolves with `null`
rather than rejecting on any failure), and the `Math.random()` sample used
by `getRandomFallbackImage`. -/
structure GenEnv where
  apiKey : Option String
  analysis : Except JsError Analysis
  imageGen : Except JsError (Option (List (Option String)))
  pexels : String → Option String
  rand : ℚ

/-- The scan of `candidates[0].content.parts` in `generateQuoteImage`:
the first part whose `inlineData.data` is present and truthy (a JS empty
string is falsy and is skipped). -/
def firstInlineData : List (Option String) → Option String
  | [] => none
  | none :: rest => firstInlineData rest
  | some d :: rest => if d = "" then firstInlineData rest else some d

/-- The `try` block of `generateQuoteImage` (`geminiService.ts`, the
Pexels-fallback variant): prompt analysis, keyword extraction with the
`"nature abstract"` default (`search_keywords || "nature abstract"`),
image generation, and the scan for image bytes; the inner `catch` rethrows
`aiError`, so any failure propagates.  Returns the block's outcome
together with the value of the mutable `searchKeywords` binding at that
point (initially `"abstract nature"`). -/
def aiPhase (env : GenEnv) : Except JsError String × String :=
  match env.analysis with
  | .error e => (.error e, "abstract nature")
  | .ok a =>
    let kw := match a.search_keywords with
      | none => "nature abstract"
      | some s => if s = "" then "nature abstract" else s
    match env.imageGen with
    | .error e => (.error e, kw)
    | .ok parts? =>
      match parts? with
      | none => (.error (jsErr "Dados de imagem não encontrados na resposta da IA."), kw)
      | some parts =>
        match firstInlineData parts with
        | some b64 => (.ok ("data:image/jpeg;base64," ++ b64), kw)
        | none => (.error (jsErr "Dados de imagem não encontrados na resposta da IA."), kw)

/-- The keywords passed to the Pexels lookup in the `catch` of
`generateQuoteImage`. -/
def finalKeywords (env : GenEnv) : String :=
  (aiPhase env).2

/-- Embedding of `generateQuoteImage` from `geminiService.ts` (the Pexels-fallback
variant): `getAiClient()` throws `API_KEY_MISSING` before the `try` block
when no key is configured; otherwise the AI phase runs, and on its failure
the `catch` consults Pexels with the current keywords, returns a truthy
Pexels URL, and falls back to a random static image otherwise. -/
def generateQuoteImage (env : GenEnv) : Except JsError String :=
  match env.apiKey with
  | none => .error (jsErr "API_KEY_MISSING")
  | some _ =>
    let pr := aiPhase env
    match pr.1 with
    | .ok s => .ok s
    | .error _ =>
      match env.pexels pr.2 with
      | some url => if url = "" then .ok (getRandomFallbackImage env.rand) else .ok url
      | none => .ok (getRandomFallbackImage env.rand)

theorem fallbackIndex_lt (r : ℚ) (h0 : 0 ≤ r) (h1 : r < 1) :
    fallbackIndex r < FALLBACK_IMAGES.length := by
  have hlen : (FALLBACK_IMAGES.length : ℚ) = 6 := by norm_num [FALLBACK_IMAGES]
  have hub : r * (FALLBACK_IMAGES.length : ℚ) < 6 := by
    rw [hlen]
    nlinarith
  have hfl : ⌊r * (FALLBACK_IMAGES.length : ℚ)⌋ < 6 := by
    have := Int.floor_le (r * (FALLBACK_IMAGES.length : ℚ))
    have h6 : ((6 : ℤ) : ℚ) = 6 := by norm_num
    exact_mod_cast Int.floor_lt.mpr (by rw [h6]; exact hub)
  have hnn : 0 ≤ ⌊r * (FALLBACK_IMAGES.length : ℚ)⌋ :=
    Int.floor_nonneg.mpr (by positivity)
  have : FALLBACK_IMAGES.length = 6 := by norm_num [FALLBACK_IMAGES]
  rw [this]
  unfold fallbackIndex
  omega

theorem getRandomFallbackImage_mem (r : ℚ) (h0 : 0 ≤ r) (h1 : r < 1) :
    getRandomFallbackImage r ∈ FALLBACK_IMAGES := by
  unfold getRandomFallbackImage
  rw [List.getD_eq_getElem FALLBACK_IMAGES "" (fallbackIndex_lt r h0 h1)]
  exact List.getElem_mem _

/-- C2: when the AI phase of `generateQuoteImage` fails and the Pexels
lookup for the resulting keywords returns a (truthy) URL, the function
resolves with exactly that stock-photo URL — the static fallback list is
never consulted. -/
theorem generateQuoteImage_pexels (env : GenEnv) (e : JsError) (url : String)
    (hk : env.apiKey.isSome = true)
    (hai : (aiPhase env).1 = .error e)
    (hp : env.pexels (finalKeywords env) = some url)
    (hurl : url ≠ "") :
    generateQuoteImage env = .ok url := by
  obtain ⟨k, hk'⟩ := Option.isSome_iff_exists.mp hk
  unfold generateQuoteImage
  rw [hk']
  simp only [hai]
  rw [show (aiPhase env).2 = finalKeywords env from rfl, hp]
  simp [hurl]

/-- The concrete environment witnessing C2: both AI calls fail and the
Pexels lookup returns a URL. -/
def cEnvPexels : GenEnv :=
  ⟨some "key", .error (jsErr "boom"), .error (jsErr "boom"),
   fun _ => some "https://pexels.example/img.jpg", 0⟩

/-- Witness for C2 at `cEnvPexels`. -/
theorem generateQuoteImage_pexels_witness :
    cEnvPexels.apiKey.isSome = true ∧
    (aiPhase cEnvPexels).1 = .error (jsErr "boom") ∧
    cEnvPexels.pexels (finalKeywords cEnvPexels) = some "https://pexels.example/img.jpg" ∧
    "https://pexels.example/img.jpg" ≠ "" ∧
    generateQuoteImage cEnvPexels = .ok "https://pexels.example/img.jpg" :=
  ⟨rfl, rfl, rfl, by decide,
   generateQuoteImage_pexels cEnvPexels (jsErr "boom") "https://pexels.example/img.jpg"
     rfl rfl rfl (by decide)⟩

/-- C6: when the AI phase fails and the Pexels lookup returns nothing,
`generateQuoteImage` resolves with an element of the fixed six-entry
`FALLBACK_IMAGES` list, and the random index used by
`getRandomFallbackImage` is in bounds. -/
theorem generateQuoteImage_static (env : GenEnv) (e : JsError)
    (hk : env.apiKey.isSome = true)
    (hai : (aiPhase env).1 = .error e)
    (hp : env.pexels (finalKeywords env) = none)
    (h0 : 0 ≤ env.rand) (h1 : env.rand < 1) :
    generateQuoteImage env = .ok (getRandomFallbackImage env.rand) ∧
    getRandomFallbackImage env.rand ∈ FALLBACK_IMAGES ∧
    fallbackIndex env.rand < FALLBACK_IMAGES.length := by
  obtain ⟨k, hk'⟩ := Option.isSome_iff_exists.mp hk
  refine ⟨?_, getRandomFallbackImage_mem env.rand h0 h1, fallbackIndex_lt env.rand h0 h1⟩
  unfold generateQuoteImage
  rw [hk']
  simp only [hai]
  rw [show (aiPhase env).2 = finalKeywords env from rfl, hp]

/-- The concrete environment witnessing C6: both AI calls and the Pexels
lookup fail, `Math.random()` sample `1/2`. -/
def cEnvStatic : GenEnv :=
  ⟨some "key", .error (jsErr "boom"), .error (jsErr "boom"), fun _ => none, 1 / 2⟩

/-- Witness for C6 at `cEnvStatic`. -/
theorem generateQuoteImage_static_witness :
    cEnvStatic.apiKey.isSome = true ∧
    (aiPhase cEnvStatic).1 = .error (jsErr "boom") ∧
    cEnvStatic.pexels (finalKeywords cEnvStatic) = none ∧
    (0 ≤ cEnvStatic.rand ∧ cEnvStatic.rand < 1) ∧
    (generateQuoteImage cEnvStatic = .ok (getRandomFallbackImage cEnvStatic.rand) ∧
     getRandomFallbackImage cEnvStatic.rand ∈ FALLBACK_IMAGES ∧
     fallbackIndex cEnvStatic.rand < FALLBACK_IMAGES.length) :=
  ⟨rfl, rfl, rfl, ⟨by norm_num [cEnvStatic], by norm_num [cEnvStatic]⟩,
   generateQuoteImage_static cEnvStatic (jsErr "boom") rfl rfl rfl
     (by norm_num [cEnvStatic]) (by norm_num [cEnvStatic])⟩

/-- A successful AI phase always produces a data URI: the returned string
is `"data:image/jpeg;base64,"` followed by the image bytes. -/
theorem aiPhase_ok_shape (env : GenEnv) (s : String)
    (h : (aiPhase env).1 = .ok s) :
    ∃ b, s = "data:image/jpeg;base64," ++ b := by
  unfold aiPhase at h
  match ha : env.analysis with
  | .error e => rw [ha] at h; exact absurd h (by simp)
  | .ok a =>
    rw [ha] at h
    simp only at h
    match hi : env.imageGen with
    | .error e => rw [hi] at h; exact absurd h (by simp)
    | .ok parts? =>
      rw [hi] at h
      match parts? with
      | none => exact absurd h (by simp)
      | some parts =>
        simp only at h
        match hf : firstInlineData parts with
        | none => rw [hf] at h; exact absurd h (by simp)
        | some b64 =>
          rw [hf] at h
          simp only [Except.ok.injEq] at h
          exact ⟨b64, h.symm⟩

theorem fallback_images_nonempty :
    ∀ s ∈ FALLBACK_IMAGES, s ≠ "" := by
  decide

/-- C8 counterexample environment: no API key is configured. -/
def cEnvNoKey : GenEnv :=
  ⟨none, .error (jsErr "x"), .error (jsErr "x"), fun _ => none, 0⟩

/-- C8 counterexample: with no API key configured, `generateQuoteImage`
rejects with `API_KEY_MISSING` — `getAiClient()` throws before the `try`
block — so it does not always resolve. -/
theorem generateQuoteImage_rejects_without_key :
    generateQuoteImage cEnvNoKey = .error (jsErr "API_KEY_MISSING") :=
  rfl

/-- C8 amended: provided the API key is configured (so `getAiClient`
succeeds), `generateQuoteImage` never rejects, whatever the outcomes of
the prompt analysis, the image generation and the stock-photo lookup: it
resolves with a non-empty string that is a data URI, the stock-photo URL,
or a static fallback entry. -/
theorem generateQuoteImage_total (env : GenEnv)
    (hk : env.apiKey.isSome = true)
    (h0 : 0 ≤ env.rand) (h1 : env.rand < 1) :
    ∃ s, generateQuoteImage env = .ok s ∧ s ≠ "" ∧
      (segStarts s.toList "data:image/jpeg;base64,".toList = true ∨
       env.pexels (finalKeywords env) = some s ∨
       s ∈ FALLBACK_IMAGES) := by
  obtain ⟨k, hk'⟩ := Option.isSome_iff_exists.mp hk
  have hfb : getRandomFallbackImage env.rand ∈ FALLBACK_IMAGES :=
    getRandomFallbackImage_mem env.rand h0 h1
  have hfbne : getRandomFallbackImage env.rand ≠ "" :=
    fallback_images_nonempty _ hfb
  unfold generateQuoteImage
  rw [hk']
  rcases hai : (aiPhase env).1 with e | s
  · rcases hp : env.pexels (finalKeywords env) with _ | url
    · have hp' : env.pexels (aiPhase env).2 = none := hp
      exact ⟨getRandomFallbackImage env.rand, by simp [hai, hp'],
        hfbne, Or.inr (Or.inr hfb)⟩
    · have hp' : env.pexels (aiPhase env).2 = some url := hp
      by_cases hu : url = ""
      · subst hu
        exact ⟨getRandomFallbackImage env.rand, by simp [hai, hp'], hfbne,
          Or.inr (Or.inr hfb)⟩
      · exact ⟨url, by simp [hai, hp', hu], hu, Or.inr (Or.inl rfl)⟩
  · obtain ⟨b, hb⟩ := aiPhase_ok_shape env s hai
    refine ⟨s, by simp [hai], ?_, Or.inl ?_⟩
    · subst hb
      intro hcon
      have hd := congrArg String.data hcon
      rw [String.data_append] at hd
      exact absurd (List.append_eq_nil.mp hd).1 (by decide)
    · subst hb
      have hT : ("data:image/jpeg;base64," ++ b).toList
          = ("data:image/jpeg;base64," : String).toList ++ b.toList :=
        String.data_append _ _
      rw [hT]
      exact segStarts_append_self _ _

/-- The concrete environment witnessing C8: key configured, successful
image generation. -/
def cEnvOk : GenEnv :=
  ⟨some "key", .ok ⟨some "vp", some "kw"⟩, .ok (some [some "QkFTRTY0"]),
   fun _ => none, 0⟩

/-- Witness for C8's amended theorem at `cEnvOk`. -/
theorem generateQuoteImage_total_witness :
    cEnvOk.apiKey.isSome = true ∧ (0 ≤ cEnvOk.rand ∧ cEnvOk.rand < 1) ∧
    (∃ s, generateQuoteImage cEnvOk = .ok s ∧ s ≠ "" ∧
      (segStarts s.toList "data:image/jpeg;base64,".toList = true ∨
       cEnvOk.pexels (finalKeywords cEnvOk) = some s ∨
       s ∈ FALLBACK_IMAGES)) :=
  ⟨rfl, ⟨by norm_num [cEnvOk], by norm_num [cEnvOk]⟩,
   generateQuoteImage_total cEnvOk rfl (by norm_num [cEnvOk]) (by norm_num [cEnvOk])⟩

/-- The whitespace characters removed by `String.prototype.trim` that can
occur around a JSON payload. -/
def isJsWs (c : Char) : Bool :=
  c = ' ' || c = '\n' || c = '\t' || c = '\r'

/-- JS `s.trim()` on character lists: drop whitespace from both ends. -/
def jsTrim (l : List Char) : List Char :=
  ((l.dropWhile isJsWs).reverse.dropWhile isJsWs).reverse

/-- The plain code-fence marker. -/
def fence : List Char := "```".toList

/-- The JSON code-fence opening marker. -/
def fenceJson : List Char := "```json".toList

/-- The four characters distinguishing the JSON fence from a plain one. -/
def jsonTag : List Char := "json".toList

/-- The JS `cleaned.replace(/```$/, "")`: remove a trailing code fence
when present (the anchored regex removes exactly the final three
backticks), otherwise leave the string unchanged. -/
def stripEndFence (l : List Char) : List Char :=
  if segStarts l.reverse fence.reverse then (l.reverse.drop 3).reverse else l

/-- The fence-stripping branch of `cleanJsonString`, applied to the
already-trimmed text (the `cleaned` local of the source): remove a leading
```` ```json ```` marker (7 characters) or, failing that, a leading plain
```` ``` ```` marker (3 characters), in either case together with a
trailing fence; leave unfenced text unchanged. -/
def stripFences (cleaned : List Char) : List Char :=
  if segStarts cleaned fenceJson then stripEndFence (cleaned.drop 7)
  else if segStarts cleaned fence then stripEndFence (cleaned.drop 3)
  else cleaned

/-- Embedding of `cleanJsonString` from `geminiService.ts`: an absent or empty response
text yields `"{}"`; otherwise the text is trimmed, the code-fence markers
are stripped, and the result is trimmed again. -/
def cleanJsonString : Option (List Char) → List Char
  | none => "\x7b\x7d".toList
  | some str =>
    if str = [] then "\x7b\x7d".toList
    else jsTrim (stripFences (jsTrim str))

theorem dropWhile_append_all (p : Char → Bool) (a b : List Char)
    (h : ∀ c ∈ a, p c = true) :
    (a ++ b).dropWhile p = b.dropWhile p := by
  induction a with
  | nil => rfl
  | cons c cs ih =>
    rw [List.cons_append, List.dropWhile_cons_of_pos (h c (by simp))]
    exact ih (fun d hd => h d (by simp [hd]))

theorem dropWhile_length_le (p : Char → Bool) (l : List Char) :
    (l.dropWhile p).length ≤ l.length := by
  induction l with
  | nil => exact Nat.le_refl 0
  | cons a t ih =>
    by_cases hp : p a
    · rw [List.dropWhile_cons_of_pos hp]
      exact Nat.le_succ_of_le ih
    · rw [List.dropWhile_cons_of_neg hp]

theorem dropWhile_fix_head (p : Char → Bool) (a : Char) (t : List Char)
    (h : (a :: t).dropWhile p = a :: t) : p a = false := by
  by_cases hp : p a
  · exfalso
    rw [List.dropWhile_cons_of_pos hp] at h
    have := dropWhile_length_le p t
    rw [h] at this
    simp at this
  · simpa using hp

theorem dropWhile_append_of_head_neg (p : Char → Bool) (x y : List Char)
    (hx : x.dropWhile p = x) (hne : x ≠ []) :
    (x ++ y).dropWhile p = x ++ y := by
  match x, hne with
  | a :: t, _ =>
    have ha : p a = false := dropWhile_fix_head p a t hx
    rw [List.cons_append, List.dropWhile_cons_of_neg (by simp [ha])]

/-- Trimming a string that is all-whitespace padding around a padding-free
core returns exactly the core. -/
theorem jsTrim_wrap (ws1 ws2 m : List Char)
    (h1 : ∀ c ∈ ws1, isJsWs c = true) (h2 : ∀ c ∈ ws2, isJsWs c = true)
    (hm : m.dropWhile isJsWs = m) (hmr : m.reverse.dropWhile isJsWs = m.reverse)
    (hne : m ≠ []) :
    jsTrim (ws1 ++ m ++ ws2) = m := by
  unfold jsTrim
  rw [List.append_assoc, dropWhile_append_all isJsWs ws1 (m ++ ws2) h1,
    dropWhile_append_of_head_neg isJsWs m ws2 hm hne,
    List.reverse_append,
    dropWhile_append_all isJsWs ws2.reverse m.reverse (by simpa using h2),
    hmr, List.reverse_reverse]

theorem stripEndFence_append (P : List Char) :
    stripEndFence (P ++ fence) = P := by
  unfold stripEndFence
  rw [List.reverse_append, if_pos (segStarts_append_self fence.reverse P.reverse),
    show (3 : Nat) = fence.reverse.length from rfl, List.drop_left,
    List.reverse_reverse]

theorem segStarts_append_left (x y z : List Char) :
    segStarts (x ++ y) (x ++ z) = segStarts y z := by
  induction x with
  | nil => rfl
  | cons a as ih => simp [segStarts, ih]

theorem dropWhile_self_idem (p : Char → Bool) (l : List Char) :
    (l.dropWhile p).dropWhile p = l.dropWhile p := by
  induction l with
  | nil => rfl
  | cons a t ih =>
    by_cases hp : p a
    · rw [List.dropWhile_cons_of_pos hp]
      exact ih
    · rw [List.dropWhile_cons_of_neg hp, List.dropWhile_cons_of_neg hp]

theorem dropWhile_append_singleton_neg (p : Char → Bool) (a : Char)
    (x : List Char) (ha : p a = false) :
    (x ++ [a]).dropWhile p = x.dropWhile p ++ [a] := by
  induction x with
  | nil =>
    rw [List.nil_append, List.dropWhile_nil, List.nil_append,
      List.dropWhile_cons_of_neg (by simp [ha])]
  | cons b bs ih =>
    by_cases hb : p b
    · rw [List.cons_append, List.dropWhile_cons_of_pos hb,
        List.dropWhile_cons_of_pos hb]
      exact ih
    · rw [List.cons_append, List.dropWhile_cons_of_neg hb,
        List.dropWhile_cons_of_neg hb, List.cons_append]

/-- Idempotence of `jsTrim`; this is exactly the trim-invariance of
`JSON.parse` needed by the code-fence cleanup theorem, instantiated with
the trimming itself standing in for the parser. -/
theorem jsTrim_idem (l : List Char) : jsTrim (jsTrim l) = jsTrim l := by
  have hv2 : (jsTrim l).reverse.dropWhile isJsWs = (jsTrim l).reverse := by
    unfold jsTrim
    rw [List.reverse_reverse]
    exact dropWhile_self_idem isJsWs _
  have hv1 : (jsTrim l).dropWhile isJsWs = jsTrim l := by
    unfold jsTrim
    match hu : (l.dropWhile isJsWs) with
    | [] => rfl
    | a :: t =>
      have ha : isJsWs a = false := by
        apply dropWhile_fix_head isJsWs a t
        rw [← hu]
        exact dropWhile_self_idem isJsWs l
      rw [List.reverse_cons, dropWhile_append_singleton_neg isJsWs a t.reverse ha,
        List.reverse_append, List.reverse_singleton, List.singleton_append,
        List.dropWhile_cons_of_neg (by simp [ha])]
  calc jsTrim (jsTrim l)
      = (((jsTrim l).dropWhile isJsWs).reverse.dropWhile isJsWs).reverse := rfl
    _ = ((jsTrim l).reverse.dropWhile isJsWs).reverse := by rw [hv1]
    _ = ((jsTrim l).reverse).reverse := by rw [hv2]
    _ = jsTrim l := List.reverse_reverse _

/-- C5: for every payload `P` wrapped in code-fence markers
(```` ```json … ``` ```` or ```` ``` … ``` ````), possibly with
surrounding whitespace, `cleanJsonString` yields a string whose parse —
for any parser invariant under whitespace trimming, as `JSON.parse` is —
is identical to the parse of `P` itself.  The hypothesis `hP` (the payload
does not begin with the four characters `json`) holds for every JSON
payload, since no JSON value starts with the letter `j`. -/
theorem cleanJsonString_codefence {α : Type} (parse : List Char → α)
    (hparse : ∀ l, parse (jsTrim l) = parse l)
    (P ws1 ws2 : List Char)
    (h1 : ∀ c ∈ ws1, isJsWs c = true) (h2 : ∀ c ∈ ws2, isJsWs c = true)
    (hP : segStarts (P ++ fence) jsonTag = false) :
    parse (cleanJsonString (some (ws1 ++ (fenceJson ++ P ++ fence) ++ ws2))) = parse P ∧
    parse (cleanJsonString (some (ws1 ++ (fence ++ P ++ fence) ++ ws2))) = parse P := by
  constructor
  · have hne : ws1 ++ (fenceJson ++ P ++ fence) ++ ws2 ≠ [] := by
      intro hcon
      obtain ⟨hcon2, -⟩ := List.append_eq_nil.mp hcon
      obtain ⟨-, hcon3⟩ := List.append_eq_nil.mp hcon2
      obtain ⟨-, hcon4⟩ := List.append_eq_nil.mp hcon3
      exact absurd hcon4 (by decide)
    have hm : (fenceJson ++ P ++ fence).dropWhile isJsWs = fenceJson ++ P ++ fence := by
      rw [List.append_assoc]
      exact dropWhile_append_of_head_neg isJsWs fenceJson (P ++ fence)
        (by decide) (by decide)
    have hmr : (fenceJson ++ P ++ fence).reverse.dropWhile isJsWs
        = (fenceJson ++ P ++ fence).reverse := by
      rw [List.append_assoc, List.reverse_append]
      exact dropWhile_append_of_head_neg isJsWs (P ++ fence).reverse
        fenceJson.reverse
        (by rw [List.reverse_append]
            exact dropWhile_append_of_head_neg isJsWs fence.reverse P.reverse
              (by decide) (by decide))
        (by simp [fence])
    have hneM : fenceJson ++ P ++ fence ≠ [] := by
      intro hcon
      obtain ⟨-, hcon2⟩ := List.append_eq_nil.mp hcon
      exact absurd hcon2 (by decide)
    rw [show cleanJsonString (some (ws1 ++ (fenceJson ++ P ++ fence) ++ ws2))
        = if ws1 ++ (fenceJson ++ P ++ fence) ++ ws2 = [] then "\x7b\x7d".toList
          else jsTrim (stripFences (jsTrim (ws1 ++ (fenceJson ++ P ++ fence) ++ ws2)))
        from rfl,
      if_neg hne,
      jsTrim_wrap ws1 ws2 (fenceJson ++ P ++ fence) h1 h2 hm hmr hneM]
    unfold stripFences
    rw [List.append_assoc, if_pos (segStarts_append_self fenceJson (P ++ fence)),
      show (7 : Nat) = fenceJson.length from rfl, List.drop_left,
      stripEndFence_append P]
    exact hparse P
  · have hne : ws1 ++ (fence ++ P ++ fence) ++ ws2 ≠ [] := by
      intro hcon
      obtain ⟨hcon2, -⟩ := List.append_eq_nil.mp hcon
      obtain ⟨-, hcon3⟩ := List.append_eq_nil.mp hcon2
      obtain ⟨-, hcon4⟩ := List.append_eq_nil.mp hcon3
      exact absurd hcon4 (by decide)
    have hm : (fence ++ P ++ fence).dropWhile isJsWs = fence ++ P ++ fence := by
      rw [List.append_assoc]
      exact dropWhile_append_of_head_neg isJsWs fence (P ++ fence)
        (by decide) (by decide)
    have hmr : (fence ++ P ++ fence).reverse.dropWhile isJsWs
        = (fence ++ P ++ fence).reverse := by
      rw [List.append_assoc, List.reverse_append]
      exact dropWhile_append_of_head_neg isJsWs (P ++ fence).reverse
        fence.reverse
        (by rw [List.reverse_append]
            exact dropWhile_append_of_head_neg isJsWs fence.reverse P.reverse
              (by decide) (by decide))
        (by simp [fence])
    have hneM : fence ++ P ++ fence ≠ [] := by
      intro hcon
      obtain ⟨-, hcon2⟩ := List.append_eq_nil.mp hcon
      exact absurd hcon2 (by decide)
    rw [show cleanJsonString (some (ws1 ++ (fence ++ P ++ fence) ++ ws2))
        = if ws1 ++ (fence ++ P ++ fence) ++ ws2 = [] then "\x7b\x7d".toList
          else jsTrim (stripFences (jsTrim (ws1 ++ (fence ++ P ++ fence) ++ ws2)))
        from rfl,
      if_neg hne,
      jsTrim_wrap ws1 ws2 (fence ++ P ++ fence) h1 h2 hm hmr hneM]
    unfold stripFences
    have hnojson : segStarts (fence ++ (P ++ fence)) fenceJson = false := by
      rw [show fenceJson = fence ++ jsonTag from rfl,
        segStarts_append_left fence (P ++ fence) jsonTag]
      exact hP
    rw [List.append_assoc, if_neg (by simp [hnojson]),
      if_pos (segStarts_append_self fence (P ++ fence)),
      show (3 : Nat) = fence.length from rfl, List.drop_left,
      stripEndFence_append P]
    exact hparse P

/-- Witness for C5 at the payload `{"a": 1}` with a space and a newline as
surrounding whitespace, the parser instantiated with `jsTrim` itself
(trim-invariant by `jsTrim_idem`). -/
theorem cleanJsonString_codefence_witness :
    ((∀ l, jsTrim (jsTrim l) = jsTrim l) ∧
     (∀ c ∈ (" ".toList : List Char), isJsWs c = true) ∧
     (∀ c ∈ ("\n".toList : List Char), isJsWs c = true) ∧
     segStarts ("\x7b\"a\": 1\x7d".toList ++ fence) jsonTag = false) ∧
    (jsTrim (cleanJsonString (some (" ".toList ++
        (fenceJson ++ "\x7b\"a\": 1\x7d".toList ++ fence) ++ "\n".toList)))
      = jsTrim "\x7b\"a\": 1\x7d".toList ∧
     jsTrim (cleanJsonString (some (" ".toList ++
        (fence ++ "\x7b\"a\": 1\x7d".toList ++ fence) ++ "\n".toList)))
      = jsTrim "\x7b\"a\": 1\x7d".toList) :=
  ⟨⟨jsTrim_idem, by decide, by decide, by decide⟩,
   cleanJsonString_codefence jsTrim jsTrim_idem
     "\x7b\"a\": 1\x7d".toList " ".toList "\n".toList
     (by decide) (by decide) (by decide)⟩

end Sophia
